import Mathlib

/-!
Shallow embedding of the `cfx` Go package (environment-identity resolution and
layered YAML configuration loading), together with theorems settling the
specification's claims against it.

The embedding follows the Go sources:
* `env.go` — `EnvVar`, `EnvID`, `EnvKeyPrefix`, `ParseEnv`, `ParseEnvKeyPrefix`,
  `EnvContext` and `NewEnvContext`;
* the config file (`NewConfig`, `resolveConfig`, `yamlContainer.Populate`).

Effectful calls into the OS and into external libraries (`os.*`, `user.Current`,
`machineid.ID`, `config.NewYAML`, the provider's deserialization) are modelled
as explicit oracle fields of a world/filesystem record, so every function is an
executable Lean definition of the Go control flow over those oracles.
-/

namespace Cfx

/-! ### Go standard-library fragments used by the code -/

/-- UTF-8 byte size of one rune, as Go counts it inside `len` of a string. -/
def runeUTF8Size (c : Char) : Nat :=
  if c.toNat < 0x80 then 1
  else if c.toNat < 0x800 then 2
  else if c.toNat < 0x10000 then 3
  else 4

/-- Go's `len` on a string: the number of UTF-8 bytes. -/
def goLen (v : String) : Nat := (v.data.map runeUTF8Size).sum

/-- Go's `strings.EqualFold`, restricted to ASCII folding (the code only ever
compares file base names and logical config names; Go additionally applies
Unicode simple folding, which agrees with this on ASCII). -/
def equalFold (a b : String) : Bool :=
  a.data.map Char.toLower == b.data.map Char.toLower

/-- Does the list start with the given pattern? (Go `strings.HasPrefix` on the
rune level, used to model `strings.Replace`.) -/
def listStartsWith (l pat : List Char) : Bool :=
  match l, pat with
  | _, [] => true
  | [], _ :: _ => false
  | a :: l, b :: pat => a == b && listStartsWith l pat

/-- Worker for `replaceAll`, structurally recursive on the input list. While
`skip` is positive the current rune belongs to an occurrence already matched
(and replaced), so it is dropped; at `skip = 0` the scanner either matches the
pattern at the current position — emitting `rep` and arranging for the matched
runes to be dropped — or copies the current rune. This is Go's left-to-right,
non-overlapping replacement scan. -/
def replaceAllAux (pat rep : List Char) : Nat → List Char → List Char
  | _, [] => []
  | Nat.succ skip, _ :: rest => replaceAllAux pat rep skip rest
  | 0, c :: rest =>
    if pat ≠ [] ∧ listStartsWith (c :: rest) pat = true then
      rep ++ replaceAllAux pat rep (pat.length - 1) rest
    else
      c :: replaceAllAux pat rep 0 rest

/-- Go's `strings.Replace(s, old, new, -1)` over rune lists: replace every
non-overlapping occurrence of `pat` by `rep`, scanning left to right.
(For the empty pattern Go would insert `rep` between runes; the code only calls
this with the nonempty patterns `".yaml"` / `".yml"`, and for an empty pattern
this definition returns the input unchanged.) -/
def replaceAll (pat rep l : List Char) : List Char :=
  replaceAllAux pat rep 0 l

/-- Go's `path/filepath.Ext`: the suffix beginning at the final dot in the final
slash-separated element; empty when there is no dot. -/
def filepathExtAux (acc : List Char) : List Char → String
  | [] => ""
  | c :: rest =>
    if c = '/' then ""
    else if c = '.' then String.mk (c :: acc)
    else filepathExtAux (c :: acc) rest

/-- Go's `path/filepath.Ext` on a path string. -/
def filepathExt (p : String) : String := filepathExtAux [] p.data.reverse

/-- Go's `path/filepath.Base` (Unix rules): `"."` for the empty path, trailing
slashes stripped, then everything after the final slash; `"/"` when only
separators remain. -/
def filepathBase (p : String) : String :=
  if p = "" then "."
  else
    let stripped := (p.data.reverse.dropWhile (fun c => c == '/')).reverse
    let last := (stripped.reverse.takeWhile (fun c => c ≠ '/')).reverse
    if last = [] then "/" else String.mk last

/-- Go's `path/filepath.IsAbs` on Unix: the path starts with a slash. -/
def filepathIsAbs (p : String) : Bool :=
  match p.data with
  | '/' :: _ => true
  | _ => false

/-- Go's `path/filepath.Join` for the two-element calls made by this code: the
elements joined by a slash (Go additionally runs `Clean` over the result; no
verified claim depends on lexical path cleaning). -/
def filepathJoin (a b : String) : String :=
  if a = "" then b else a ++ "/" ++ b

/-- `os.Stat` failures as the code distinguishes them: `os.IsNotExist`,
`os.IsPermission`, or any other error, each carrying the error text. -/
inductive StatErr where
  | notExist (msg : String)
  | permission (msg : String)
  | other (msg : String)
deriving Repr, DecidableEq

/-- The part of `os.FileInfo` the code inspects. -/
structure FileInfo where
  isDir : Bool
deriving Repr, DecidableEq

/-! ### env.go: identifiers, prefixes and environment variables -/

/-- Go `type EnvID string`. -/
abbrev EnvID := String

/-- Go `type EnvKeyPrefix string`. -/
abbrev EnvKeyPrefix := String

/-- Go `type EnvVar string`. -/
abbrev EnvVar := String

def KeyEnvironment : EnvVar := "ENVIRONMENT"
def KeyAppPath : EnvVar := "APP_DIR"
def KeyConfigPath : EnvVar := "CONFIG_DIR"
def KeyAppID : EnvVar := "APP_ID"
def KeyServiceID : EnvVar := "SERVICE_ID"
def KeyInstanceID : EnvVar := "INSTANCE_ID"
def KeyRegion : EnvVar := "REGION"
def KeyAvailabilityZone : EnvVar := "AVAILABILITY_ZONE"
def KeyNetworkID : EnvVar := "NETWORK_ID"
def KeyDatacenterID : EnvVar := "DATACENTER_ID"

def DefaultEnvKeyPrefix : EnvKeyPrefix := "CFX"
def _defaultConfigDir : String := "config"
def _defaultEnv : EnvID := "development"
def _nilEnv : EnvID := ""
def DefaultEnvVarSeparator : String := "_"

/-- `EnvVar.Key`: bond an `EnvKeyPrefix` onto the variable with `_`; the empty
prefix falls back to `DefaultEnvKeyPrefix`. -/
def EnvVar.Key (e : EnvVar) (p : EnvKeyPrefix) : String :=
  if p = "" then String.intercalate DefaultEnvVarSeparator [DefaultEnvKeyPrefix, e]
  else String.intercalate "_" [p, e]

/-- `EnvVar.Get`: read the process environment (modelled as a total map, absent
variables yielding `""` exactly as `os.Getenv` does) at the bonded key. -/
def EnvVar.Get (e : EnvVar) (getenv : String → String) (p : EnvKeyPrefix) : String :=
  getenv (e.Key p)

/-- `validEnvLetter`: lowercase ASCII letter or digit. -/
def validEnvLetter (c : Char) : Bool :=
  (decide ('a' ≤ c) && decide (c ≤ 'z')) || (decide ('0' ≤ c) && decide (c ≤ '9'))

/-- `validEnvKeyPrefixLetter`: uppercase ASCII letter, digit, or underscore. -/
def validEnvKeyPrefixLetter (c : Char) : Bool :=
  (decide ('A' ≤ c) && decide (c ≤ 'Z')) || (decide ('0' ≤ c) && decide (c ≤ '9')) || (c == '_')

/-- `ParseEnv`: empty input yields the default environment; otherwise the byte
length must be at most 64 and at least 2 and every rune a lowercase ASCII
letter or digit; on any violation the nil identifier is returned with an
error. -/
def ParseEnv (v : String) : EnvID × Option String :=
  if v = "" then (_defaultEnv, none)
  else if goLen v > 64 then
    (_nilEnv, some "environment identifier must not be longer than 64 characters")
  else if goLen v < 2 then
    (_nilEnv, some "environment identifier must be longer than 2 characters")
  else if v.data.all validEnvLetter then (v, none)
  else
    (_nilEnv, some "environment identifier contains invalid characters, must be only lowercase alpha numeric")

/-- `ParseEnvKeyPrefix`: empty input yields the default prefix; otherwise the
byte length must be at most 64 and at least 2, the first and last byte must not
be an underscore, and every rune must be an uppercase ASCII letter, digit or
underscore; on any violation the default prefix is returned with an error.
(Go indexes the first and last byte; since no UTF-8 continuation or lead byte
equals `_`, checking the first and last rune is equivalent.) -/
def ParseEnvKeyPrefix (v : String) : EnvKeyPrefix × Option String :=
  if v = "" then (DefaultEnvKeyPrefix, none)
  else if goLen v > 64 then
    (DefaultEnvKeyPrefix, some "env key prefix must not be longer than 64 characters")
  else if goLen v < 2 then
    (DefaultEnvKeyPrefix, some "env key prefix must be longer than 2 characters")
  else if v.data.head? == some '_' || v.data.getLast? == some '_' then
    (DefaultEnvKeyPrefix, some "env key prefix cannot start or end with an underscore character")
  else if v.data.all validEnvKeyPrefixLetter then (v, none)
  else
    (DefaultEnvKeyPrefix, some "environment identifier contains invalid characters, must be only lowercase alpha numeric")

/-! ### env.go: the EnvContext aggregate -/

/-- `HostContext`: hostname, machine UUID, timezone. -/
structure HostContext where
  Hostname : String := ""
  UUID : String := ""
  Timezone : String := ""
deriving Repr, DecidableEq

/-- `GoContext`: OS, architecture and runtime version of the build. -/
structure GoContext where
  OS : String := ""
  Arch : String := ""
  Version : String := ""
deriving Repr, DecidableEq

/-- `DeploymentContext`: free-form deployment identifiers. -/
structure DeploymentContext where
  AppID : String := ""
  ServiceID : String := ""
  InstanceID : String := ""
  Region : String := ""
  AvailabilityZone : String := ""
  NetworkID : String := ""
  DatacenterID : String := ""
deriving Repr, DecidableEq

/-- `UserContext`: the user the process runs as. -/
structure UserContext where
  Username : String := ""
  UID : String := ""
  GID : String := ""
deriving Repr, DecidableEq

/-- `ProcessContext`: pid and ppid. -/
structure ProcessContext where
  PID : Int := 0
  PPID : Int := 0
deriving Repr, DecidableEq

/-- `EnvContext`: the aggregate environment snapshot. Field defaults are the Go
zero values, so `{}` is the zero-value `EnvContext`. -/
structure EnvContext where
  Environment : EnvID := ""
  EnvPrefix : EnvKeyPrefix := ""
  AppPath : String := ""
  ConfigPath : String := ""
  Host : HostContext := {}
  Go : GoContext := {}
  Deployment : DeploymentContext := {}
  User : UserContext := {}
  Process : ProcessContext := {}
deriving Repr, DecidableEq

/-- The zero value of `EnvContext` (`var ctx EnvContext`). -/
def zeroEnvContext : EnvContext := {}

/-- The user record returned by `user.Current` (`os/user.User`), restricted to
the fields the code reads. -/
structure GoUser where
  Username : String := ""
  Uid : String := ""
  Gid : String := ""
deriving Repr, DecidableEq

/-- The world `NewEnvContext` runs in: every OS and library call it makes,
as an explicit oracle. `currentUser` carries `user.Current`'s pointer result
(`none` models a nil pointer without an error). -/
structure EnvWorld where
  getenv : String → String
  hostname : Except String String
  machineID : Except String String
  currentUser : Except String (Option GoUser)
  getwd : Except String String
  abs : String → Except String String
  stat : String → Except StatErr FileInfo
  timezone : String := ""
  goos : String := ""
  goarch : String := ""
  goversion : String := ""
  pid : Int := 0
  ppid : Int := 0

/-- The body of `NewEnvContext` after the prefix was validated: build the
initial context from defaults and namespaced environment variables, then
resolve hostname, machine id, user, the `ENVIRONMENT` variable, `AppPath` and
`ConfigPath` in order; each failure returns the context populated so far
together with the error, exactly as the Go `return ctx, err` sites do. -/
def NewEnvContextCore (w : EnvWorld) (envPfx : EnvKeyPrefix) : EnvContext × Option String :=
  let ctx : EnvContext :=
    { Environment := _defaultEnv
      EnvPrefix := envPfx
      ConfigPath := EnvVar.Get KeyConfigPath w.getenv envPfx
      AppPath := EnvVar.Get KeyAppPath w.getenv envPfx
      Host := { Timezone := w.timezone }
      Go := { OS := w.goos, Arch := w.goarch, Version := w.goversion }
      Deployment :=
        { AppID := EnvVar.Get KeyAppID w.getenv envPfx
          ServiceID := EnvVar.Get KeyServiceID w.getenv envPfx
          InstanceID := EnvVar.Get KeyInstanceID w.getenv envPfx
          Region := EnvVar.Get KeyRegion w.getenv envPfx
          AvailabilityZone := EnvVar.Get KeyAvailabilityZone w.getenv envPfx
          NetworkID := EnvVar.Get KeyNetworkID w.getenv envPfx
          DatacenterID := EnvVar.Get KeyDatacenterID w.getenv envPfx }
      Process := { PID := w.pid, PPID := w.ppid }
      User := {} }
  match w.hostname with
  | Except.error e => (ctx, some ("could not determine the systems hostname: " ++ e))
  | Except.ok hn =>
  let ctx := { ctx with Host := { ctx.Host with Hostname := hn } }
  match w.machineID with
  | Except.error e => (ctx, some ("could not determine the machine uuid: " ++ e))
  | Except.ok mid =>
  let ctx := { ctx with Host := { ctx.Host with UUID := mid } }
  match w.currentUser with
  | Except.error e => (ctx, some ("could not determine the current user: " ++ e))
  | Except.ok none => (ctx, some "current user implementation not supported on system")
  | Except.ok (some u) =>
  let ctx := { ctx with User := { Username := u.Username, UID := u.Uid, GID := u.Gid } }
  let val := EnvVar.Get KeyEnvironment w.getenv envPfx
  match (if val ≠ "" then some (ParseEnv val) else none) with
  | some (_, some err) =>
    (ctx, some ("env var " ++ val ++ " is not a valid environment: " ++ err))
  | other =>
  let ctx := match other with
    | some (env, none) => { ctx with Environment := env }
    | _ => ctx
  match (if ctx.AppPath = "" then w.getwd else Except.ok ctx.AppPath) with
  | Except.error e =>
    (ctx, some (KeyAppPath ++ " was not set - default of current directory was not possible: " ++ e))
  | Except.ok ap =>
  let ctx := { ctx with AppPath := ap }
  match (if ¬ filepathIsAbs ctx.AppPath then w.abs ctx.AppPath else Except.ok ctx.AppPath) with
  | Except.error e =>
    (ctx, some (KeyAppPath ++ " is set to " ++ ctx.AppPath ++ " - which cannot have its absolute path resolved: " ++ e))
  | Except.ok ap2 =>
  let ctx := { ctx with AppPath := ap2 }
  match w.stat ctx.AppPath with
  | Except.error (StatErr.notExist e) =>
    (ctx, some (KeyAppPath ++ " is set to " ++ ctx.AppPath ++ " - which does not exist: " ++ e))
  | Except.error (StatErr.permission e) =>
    (ctx, some (KeyAppPath ++ " is set to " ++ ctx.AppPath ++ " - which too restrictive permissions: " ++ e))
  | Except.error (StatErr.other e) =>
    (ctx, some (KeyAppPath ++ " is set to " ++ ctx.AppPath ++ " - which could not be interpeted by the os: " ++ e))
  | Except.ok st =>
  if ¬ st.isDir then
    (ctx, some (KeyAppPath ++ " is set to " ++ ctx.AppPath ++ " - which points to a file, not a directory"))
  else
  let ctx :=
    if ctx.ConfigPath = "" then { ctx with ConfigPath := filepathJoin ctx.AppPath _defaultConfigDir }
    else ctx
  match (if ¬ filepathIsAbs ctx.ConfigPath then w.abs ctx.ConfigPath else Except.ok ctx.ConfigPath) with
  | Except.error e =>
    (ctx, some (KeyAppPath ++ " is set to " ++ ctx.AppPath ++ " - which cannot have its absolute path resolved: " ++ e))
  | Except.ok cp =>
  let ctx := { ctx with ConfigPath := cp }
  match w.stat ctx.ConfigPath with
  | Except.error (StatErr.notExist e) =>
    (ctx, some (KeyConfigPath ++ " is set to " ++ ctx.ConfigPath ++ " - which does not exist: " ++ e))
  | Except.error (StatErr.permission e) =>
    (ctx, some (KeyConfigPath ++ " is set to " ++ ctx.ConfigPath ++ " - which too restrictive permissions: " ++ e))
  | Except.error (StatErr.other e) =>
    (ctx, some (KeyConfigPath ++ " is set to " ++ ctx.ConfigPath ++ " - which could not be interpeted by the os: " ++ e))
  | Except.ok st2 =>
  if ¬ st2.isDir then
    (ctx, some (KeyConfigPath ++ " is set to " ++ ctx.ConfigPath ++ " - which points to a file, not a directory"))
  else (ctx, none)

/-- `NewEnvContext`: validate the prefix (a failure returns the zero-value
context with the error) and run the construction body. -/
def NewEnvContext (w : EnvWorld) (pfx : String) : EnvContext × Option String :=
  match ParseEnvKeyPrefix pfx with
  | (_, some err) => (zeroEnvContext, some err)
  | (envPfx, none) => NewEnvContextCore w envPfx

/-! ### The config file: errors, locator, loader and container -/

/-- Go error values as this package distinguishes them: the two sentinel errors
(`ErrConfigNotFound`, `ErrNoConfigsLoaded`) and `fmt.Errorf` messages. -/
inductive GoErr where
  | configNotFound
  | noConfigsLoaded
  | msg (s : String)
deriving Repr, DecidableEq

/-- `ErrConfigNotFound`: a configuration cannot be located. -/
def ErrConfigNotFound : GoErr := GoErr.configNotFound

/-- `ErrNoConfigsLoaded`: no configuration files were loaded. -/
def ErrNoConfigsLoaded : GoErr := GoErr.noConfigsLoaded

def _defaultConfigName : String := "base"

/-- The keys of the `yamlExts` map: the accepted extensions, matched by exact
(case-sensitive) map lookup in the source. -/
def yamlExts : List String := [".yaml", ".yml"]

/-- One entry of `ioutil.ReadDir`'s listing, as the code inspects it. -/
structure DirEntry where
  name : String
  isDir : Bool
deriving Repr, DecidableEq

/-- The filesystem oracle used by `resolveConfig`: `os.Stat` and
`ioutil.ReadDir`. -/
structure FS where
  stat : String → Except StatErr FileInfo
  readDir : String → Except String (List DirEntry)

/-- The name `resolveConfig` compares against the logical name: the base name
of the file with every occurrence of its extension removed
(`strings.Replace(filepath.Base(name), filepath.Ext(name), "", -1)`). -/
def configBaseName (n : String) : String :=
  String.mk (replaceAll (filepathExt n).data [] (filepathBase n).data)

/-- The directory-scanning loop of `resolveConfig`: skip directories, skip
files whose extension is not a key of `yamlExts`, and return the first file
whose stripped base name case-insensitively equals `name`; otherwise
`ErrConfigNotFound`. -/
def resolveLoop (configDir name : String) : List DirEntry → String × Option GoErr
  | [] => ("", some ErrConfigNotFound)
  | x :: files =>
    if x.isDir then resolveLoop configDir name files
    else
      let fileext := filepathExt x.name
      if ¬ (yamlExts.contains fileext = true) then resolveLoop configDir name files
      else
        let basename := configBaseName x.name
        if equalFold basename name then (filepathJoin configDir x.name, none)
        else resolveLoop configDir name files

/-- `resolveConfig`: stat the directory (distinguishing not-exist, permission
and other failures, and rejecting non-directories), list it, and scan the
listing with `resolveLoop`. Returns the Go pair (path, error). -/
def resolveConfig (fs : FS) (configDir name : String) : String × Option GoErr :=
  match fs.stat configDir with
  | Except.error (StatErr.notExist m) =>
    ("", some (GoErr.msg ("config directory " ++ configDir ++ " did not exist: " ++ m)))
  | Except.error (StatErr.permission m) =>
    ("", some (GoErr.msg ("config directory " ++ configDir ++ " is not readable: " ++ m)))
  | Except.error (StatErr.other m) =>
    ("", some (GoErr.msg ("config directory " ++ configDir ++ " could not be located: " ++ m)))
  | Except.ok cd =>
    if ¬ cd.isDir then
      ("", some (GoErr.msg ("config directory " ++ configDir ++ " is a file, not a directory")))
    else
      match fs.readDir configDir with
      | Except.error m => ("", some (GoErr.msg ("could not list config directory: " ++ m)))
      | Except.ok files => resolveLoop configDir name files

/-- The YAML options accumulated by `NewConfig`: `config.Expand(os.LookupEnv)`
and `config.File(path)`. -/
inductive YAMLOption where
  | expandEnv
  | file (path : String)
deriving Repr, DecidableEq

/-- The external `config.YAML` provider, abstracted: for each key, the outcome
of `cfg.Get(key).Populate(target)` for the caller's target. -/
structure ConfigYAML where
  populate : String → Option GoErr

/-- The world `NewConfig` runs in: the filesystem (for the locator) and the
external `config.NewYAML` constructor, which can fail or return a nil
provider. -/
structure ConfigWorld where
  fs : FS
  newYAML : List YAMLOption → Except String (Option ConfigYAML)

/-- `yamlContainer`: holds the provider set by a successful load (`nil` in the
zero-value state). The embedded `sync.RWMutex` is modelled by the lock traces
of the operations (`LockOp`). -/
structure yamlContainer where
  cfg : Option ConfigYAML

/-- Modelled from the spec: the loader locates the environment file by the
logical name `env.Environment.String()`; the `Name` accessor the source calls
on `EnvID` is not among the repository's files and is modelled as returning
the identifier string, identical to `String()`. -/
def EnvID.Name (e : EnvID) : String := e

/-- The tail of `NewConfig` after both locator calls: build the provider from
the accumulated options; a constructor error or a nil provider is fatal,
otherwise the provider is stored in the container. -/
def finishNewConfig (w : ConfigWorld) (cfgopts : List YAMLOption) : yamlContainer × Option GoErr :=
  match w.newYAML cfgopts with
  | Except.error m =>
    ({ cfg := none }, some (GoErr.msg ("error constructing yaml configuration: " ++ m)))
  | Except.ok none =>
    ({ cfg := none }, some (GoErr.msg "yaml config constructor returned nil provider"))
  | Except.ok (some provider) => ({ cfg := some provider }, none)

/-- `NewConfig`: locate `base` (a `ErrConfigNotFound` is tolerated, any other
error is returned; a located file is appended as a layer), locate the
environment-named file (any error is returned), then build the provider. -/
def NewConfig (w : ConfigWorld) (env : EnvContext) : yamlContainer × Option GoErr :=
  let ret : yamlContainer := { cfg := none }
  let cfgopts : List YAMLOption := [YAMLOption.expandEnv]
  let rbase := resolveConfig w.fs env.ConfigPath _defaultConfigName
  if rbase.2 ≠ none ∧ rbase.2 ≠ some ErrConfigNotFound then (ret, rbase.2)
  else
    let basecfg := rbase.1
    let cfgopts := if basecfg ≠ "" then cfgopts ++ [YAMLOption.file basecfg] else cfgopts
    let renv := resolveConfig w.fs env.ConfigPath (EnvID.Name env.Environment)
    match renv.2 with
    | some e => (ret, some e)
    | none => finishNewConfig w (cfgopts ++ [YAMLOption.file renv.1])

/-- Operations on the container's `sync.RWMutex`: `RLock`/`RUnlock` are the
read side, `Lock`/`Unlock` the exclusive write side. -/
inductive LockOp where
  | rlock
  | runlock
  | lock
  | unlock
deriving Repr, DecidableEq

/-- Is the operation on the read side of the reader/writer lock? -/
def LockOp.isReadSide : LockOp → Bool
  | LockOp.rlock => true
  | LockOp.runlock => true
  | _ => false

/-- One call of `yamlContainer.Populate`, instrumented with the lock
operations it performs (the source calls `y.Lock()` and defers `y.Unlock()`)
and with whether it delegates to the underlying provider's deserialization:
a container never loaded fails with `ErrNoConfigsLoaded` without delegating. -/
def yamlContainer.PopulateRun (y : yamlContainer) (key : String) :
    List LockOp × Bool × Option GoErr :=
  match y.cfg with
  | none => ([LockOp.lock, LockOp.unlock], false, some ErrNoConfigsLoaded)
  | some c => ([LockOp.lock, LockOp.unlock], true, c.populate key)

/-- `yamlContainer.Populate`: the error result of a `Populate` call. -/
def yamlContainer.Populate (y : yamlContainer) (key : String) : Option GoErr :=
  (y.PopulateRun key).2.2

/-! ### Concrete worlds used to evaluate the functions at specific inputs -/

/-- A filesystem whose directory listing holds exactly one plain file with the
given name (the directory itself stats as an existing directory). -/
def fsWithFile (n : String) : FS :=
  { stat := fun _ => Except.ok { isDir := true }
    readDir := fun _ => Except.ok [{ name := n, isDir := false }] }

/-- A filesystem whose directory exists and is empty. -/
def fsEmptyDir : FS :=
  { stat := fun _ => Except.ok { isDir := true }
    readDir := fun _ => Except.ok [] }

/-- A filesystem whose `stat` fails with a generic (neither not-exist nor
permission) error. -/
def fsStatFail : FS :=
  { stat := fun _ => Except.error (StatErr.other "disk")
    readDir := fun _ => Except.ok [] }

/-- A `config.NewYAML` oracle that always succeeds with a provider whose
deserialization succeeds on every key. -/
def newYAMLOk : List YAMLOption → Except String (Option ConfigYAML) :=
  fun _ => Except.ok (some { populate := fun _ => none })

/-- An environment context pointing `NewConfig` at directory `"d"` for
environment `"dev"`. -/
def envDev : EnvContext := { Environment := "dev", ConfigPath := "d" }

/-- A `NewConfig` world whose directory stat fails with a generic error. -/
def cwStatFail : ConfigWorld := { fs := fsStatFail, newYAML := newYAMLOk }

/-- A `NewConfig` world whose directory holds only `dev.yaml`. -/
def cwOnlyDev : ConfigWorld := { fs := fsWithFile "dev.yaml", newYAML := newYAMLOk }

/-- A `NewConfig` world whose directory is empty. -/
def cwEmptyDir : ConfigWorld := { fs := fsEmptyDir, newYAML := newYAMLOk }

/-- An `EnvWorld` in which everything succeeds except hostname resolution. -/
def envWorldHostFail : EnvWorld :=
  { getenv := fun _ => ""
    hostname := Except.error "no hostname"
    machineID := Except.ok "m"
    currentUser := Except.ok (some {})
    getwd := Except.ok "/app"
    abs := fun s => Except.ok s
    stat := fun _ => Except.ok { isDir := true } }

/-! ## Support lemmas -/

theorem charLe_toNat {a c : Char} (h : a ≤ c) : a.toNat ≤ c.toNat := by
  simp only [Char.le_def, UInt32.le_def, BitVec.le_def] at h
  simp only [Char.toNat, UInt32.toNat]
  exact h

theorem validEnvLetter_size {c : Char} (h : validEnvLetter c = true) : runeUTF8Size c = 1 := by
  have hlt : c.toNat < 0x80 := by
    simp only [validEnvLetter, Bool.or_eq_true, Bool.and_eq_true, decide_eq_true_eq] at h
    have hz : ('z' : Char).toNat = 122 := by decide
    have h9 : ('9' : Char).toNat = 57 := by decide
    rcases h with ⟨_, h2⟩ | ⟨_, h2⟩
    · have := charLe_toNat h2
      omega
    · have := charLe_toNat h2
      omega
  simp [runeUTF8Size, hlt]

theorem validEnvKeyPrefixLetter_size {c : Char}
    (h : validEnvKeyPrefixLetter c = true) : runeUTF8Size c = 1 := by
  have hlt : c.toNat < 0x80 := by
    simp only [validEnvKeyPrefixLetter, Bool.or_eq_true, Bool.and_eq_true,
      decide_eq_true_eq, beq_iff_eq] at h
    have hZ : ('Z' : Char).toNat = 90 := by decide
    have h9 : ('9' : Char).toNat = 57 := by decide
    rcases h with (⟨_, h2⟩ | ⟨_, h2⟩) | h2
    · have := charLe_toNat h2
      omega
    · have := charLe_toNat h2
      omega
    · subst h2
      decide
  simp [runeUTF8Size, hlt]

theorem sum_map_ones {l : List Char} (h : ∀ c ∈ l, runeUTF8Size c = 1) :
    (l.map runeUTF8Size).sum = l.length := by
  induction l with
  | nil => rfl
  | cons c t ih =>
    simp only [List.map_cons, List.sum_cons, List.length_cons]
    rw [h c (by simp), ih (fun x hx => h x (by simp [hx]))]
    omega

theorem goLen_eq_length {v : String} (h : ∀ c ∈ v.data, runeUTF8Size c = 1) :
    goLen v = v.length := sum_map_ones h

theorem ne_empty_of_length_pos {v : String} (h : 0 < v.length) : v ≠ "" := by
  intro he
  rw [he] at h
  exact absurd h (by decide)

theorem goLen_pos_ne_empty {v : String} (h : 0 < goLen v) : v ≠ "" := by
  intro he
  rw [he] at h
  exact absurd h (by decide)

theorem length_le_goLen (v : String) : v.length ≤ goLen v := by
  show v.data.length ≤ (v.data.map runeUTF8Size).sum
  induction v.data with
  | nil => simp
  | cons c t ih =>
    have h1 : 1 ≤ runeUTF8Size c := by
      unfold runeUTF8Size
      split
      · omega
      split
      · omega
      split
      · omega
      · omega
    simp only [List.length_cons, List.map_cons, List.sum_cons]
    omega

theorem listStartsWith_refl (l : List Char) : listStartsWith l l = true := by
  induction l with
  | nil => rfl
  | cons c t ih => simp [listStartsWith, ih]

theorem replaceAllAux_skip_all (pat rep l : List Char) :
    replaceAllAux pat rep l.length l = [] := by
  induction l with
  | nil => rfl
  | cons c t ih => exact ih

/-! ## Claim C5: ParseEnv -/

/-- C5. `ParseEnv`: empty input returns the default identifier `"development"`
with no error; every input of length 2 to 64 consisting only of characters in
`[a-z0-9]` is returned verbatim with no error; every other input returns an
error; and the length checks run before the character check (an over- or
under-length input gets the length error even when it also has invalid
characters). -/
theorem ParseEnv_contract :
    (ParseEnv "" = (_defaultEnv, none)) ∧
    (∀ v : String, 2 ≤ v.length → v.length ≤ 64 →
       (∀ c ∈ v.data, validEnvLetter c = true) → ParseEnv v = (v, none)) ∧
    (∀ v : String, v ≠ "" →
       (v.length < 2 ∨ 64 < v.length ∨ ∃ c ∈ v.data, validEnvLetter c = false) →
       ((ParseEnv v).2).isSome = true) ∧
    (∀ v : String, 64 < goLen v →
       (ParseEnv v).2 = some "environment identifier must not be longer than 64 characters") ∧
    (∀ v : String, v ≠ "" → goLen v < 2 →
       (ParseEnv v).2 = some "environment identifier must be longer than 2 characters") := by
  refine ⟨by decide, ?_, ?_, ?_, ?_⟩
  · intro v h2 h64 hall
    have hg : goLen v = v.length := goLen_eq_length (fun c hc => validEnvLetter_size (hall c hc))
    have hne : v ≠ "" := ne_empty_of_length_pos (by omega)
    have hb : v.data.all validEnvLetter = true := List.all_eq_true.mpr hall
    unfold ParseEnv
    rw [if_neg hne, if_neg (by omega), if_neg (by omega), if_pos hb]
  · intro v hne hviol
    by_cases h64 : goLen v > 64
    · simp [ParseEnv, hne, h64]
    by_cases h2 : goLen v < 2
    · simp [ParseEnv, hne, h64, h2]
    have hall : v.data.all validEnvLetter = false := by
      by_contra hcon
      rw [Bool.not_eq_false] at hcon
      have hasc : ∀ c ∈ v.data, runeUTF8Size c = 1 :=
        fun c hc => validEnvLetter_size (List.all_eq_true.mp hcon c hc)
      have hg : goLen v = v.length := goLen_eq_length hasc
      rcases hviol with hlt | hgt | ⟨c, hc, hcf⟩
      · omega
      · omega
      · have := List.all_eq_true.mp hcon c hc
        rw [hcf] at this
        exact absurd this (by decide)
    simp [ParseEnv, hne, h64, h2, hall]
  · intro v h64
    have hne : v ≠ "" := goLen_pos_ne_empty (by omega)
    simp [ParseEnv, hne, h64]
  · intro v hne h2
    have h64 : ¬ goLen v > 64 := by omega
    simp [ParseEnv, hne, h64, h2]

/-- Witness for C5: instantiations of every hypothesis bundle of
`ParseEnv_contract`. -/
theorem ParseEnv_contract_witness :
    ParseEnv "dev" = ("dev", none) ∧
    ((ParseEnv "Dev").2).isSome = true ∧
    (ParseEnv "aaaaaaaaaaaaaaaaaaaaaaaaaaaaaaaaaaaaaaaaaaaaaaaaaaaaaaaaaaaaaaaa!").2 =
      some "environment identifier must not be longer than 64 characters" ∧
    (ParseEnv "!").2 = some "environment identifier must be longer than 2 characters" :=
  ⟨ParseEnv_contract.2.1 "dev" (by decide) (by decide) (by decide),
   ParseEnv_contract.2.2.1 "Dev" (by decide) (Or.inr (Or.inr ⟨'D', by decide, by decide⟩)),
   ParseEnv_contract.2.2.2.1 "aaaaaaaaaaaaaaaaaaaaaaaaaaaaaaaaaaaaaaaaaaaaaaaaaaaaaaaaaaaaaaaa!"
     (by decide),
   ParseEnv_contract.2.2.2.2 "!" (by decide) (by decide)⟩

/-! ## Claim C10: ParseEnv error value -/

/-- C10. Whenever `ParseEnv` returns an error, the identifier it returns
alongside the error is the empty string `_nilEnv` — neither the default
`"development"` nor the input. -/
theorem ParseEnv_error_fst_nil (v : String)
    (h : ((ParseEnv v).2).isSome = true) : (ParseEnv v).1 = _nilEnv := by
  revert h
  unfold ParseEnv
  repeat' split <;> simp_all

/-- Witness for C10: the too-short input `"a"` errors and the returned
identifier is `""`. -/
theorem ParseEnv_error_fst_nil_witness : (ParseEnv "a").1 = _nilEnv :=
  ParseEnv_error_fst_nil "a" (by decide)

/-! ## Claim C6: ParseEnvKeyPrefix -/

/-- C6. `ParseEnvKeyPrefix`: empty input returns the default prefix `"CFX"`
with no error; an input of length 2 to 64 over `[A-Z0-9_]` whose first and
last characters are not underscore is returned verbatim with no error; on any
violation the default prefix `"CFX"` is returned together with an error. -/
theorem ParseEnvKeyPrefix_contract :
    (ParseEnvKeyPrefix "" = (DefaultEnvKeyPrefix, none)) ∧
    (∀ v : String, 2 ≤ v.length → v.length ≤ 64 →
       (∀ c ∈ v.data, validEnvKeyPrefixLetter c = true) →
       v.data.head? ≠ some '_' → v.data.getLast? ≠ some '_' →
       ParseEnvKeyPrefix v = (v, none)) ∧
    (∀ v : String, v ≠ "" →
       (v.length < 2 ∨ 64 < v.length ∨ v.data.head? = some '_' ∨
          v.data.getLast? = some '_' ∨ ∃ c ∈ v.data, validEnvKeyPrefixLetter c = false) →
       (ParseEnvKeyPrefix v).1 = DefaultEnvKeyPrefix ∧
         ((ParseEnvKeyPrefix v).2).isSome = true) := by
  refine ⟨by decide, ?_, ?_⟩
  · intro v h2 h64 hall hhd htl
    have hg : goLen v = v.length :=
      goLen_eq_length (fun c hc => validEnvKeyPrefixLetter_size (hall c hc))
    have hne : v ≠ "" := ne_empty_of_length_pos (by omega)
    have hb : v.data.all validEnvKeyPrefixLetter = true := List.all_eq_true.mpr hall
    have hu : (v.data.head? == some '_' || v.data.getLast? == some '_') = false := by
      simp [hhd, htl]
    unfold ParseEnvKeyPrefix
    rw [if_neg hne, if_neg (by omega), if_neg (by omega), if_neg (by simp [hu]), if_pos hb]
  · intro v hne hviol
    by_cases h64 : goLen v > 64
    · constructor <;> simp [ParseEnvKeyPrefix, hne, h64]
    by_cases h2 : goLen v < 2
    · constructor <;> simp [ParseEnvKeyPrefix, hne, h64, h2]
    by_cases hu : (v.data.head? == some '_' || v.data.getLast? == some '_') = true
    · constructor <;> simp [ParseEnvKeyPrefix, hne, h64, h2, hu]
    have hall : v.data.all validEnvKeyPrefixLetter = false := by
      by_contra hcon
      rw [Bool.not_eq_false] at hcon
      have hasc : ∀ c ∈ v.data, runeUTF8Size c = 1 :=
        fun c hc => validEnvKeyPrefixLetter_size (List.all_eq_true.mp hcon c hc)
      have hg : goLen v = v.length := goLen_eq_length hasc
      simp only [Bool.or_eq_false_iff, beq_eq_false_iff_ne, ne_eq] at hu
      rcases hviol with hlt | hgt | hhd | htl | ⟨c, hc, hcf⟩
      · omega
      · omega
      · rw [Bool.or_eq_true] at hu
        exact hu (Or.inl (by simp [hhd]))
      · rw [Bool.or_eq_true] at hu
        exact hu (Or.inr (by simp [htl]))
      · have := List.all_eq_true.mp hcon c hc
        rw [hcf] at this
        exact absurd this (by decide)
    constructor <;>
      simp [ParseEnvKeyPrefix, hne, h64, h2, Bool.not_eq_true _ ▸ hu, hall]

/-- Witness for C6: instantiations of both hypothesis bundles of
`ParseEnvKeyPrefix_contract`. -/
theorem ParseEnvKeyPrefix_contract_witness :
    ParseEnvKeyPrefix "MY_APP" = ("MY_APP", none) ∧
    ((ParseEnvKeyPrefix "_A").1 = DefaultEnvKeyPrefix ∧
      ((ParseEnvKeyPrefix "_A").2).isSome = true) :=
  ⟨ParseEnvKeyPrefix_contract.2.1 "MY_APP" (by decide) (by decide) (by decide)
      (by decide) (by decide),
   ParseEnvKeyPrefix_contract.2.2 "_A" (by decide)
      (Or.inr (Or.inr (Or.inl (by decide))))⟩

/-! ## Claim C7: EnvVar.Key and EnvVar.Get -/

/-- C7. For every non-empty prefix `p` and variable `x`, `EnvVar.Key` computes
exactly `p ++ "_" ++ x`; for the empty prefix it computes
`DefaultEnvKeyPrefix ++ "_" ++ x` (that is, `"CFX_" ++ x`); and `EnvVar.Get`
reads exactly the OS variable with that name. -/
theorem EnvVarKey_contract :
    (∀ (p : EnvKeyPrefix) (x : EnvVar), p ≠ "" → EnvVar.Key x p = p ++ "_" ++ x) ∧
    (∀ x : EnvVar, EnvVar.Key x "" = DefaultEnvKeyPrefix ++ "_" ++ x) ∧
    (∀ (g : String → String) (p : EnvKeyPrefix) (x : EnvVar),
       EnvVar.Get x g p = g (EnvVar.Key x p)) := by
  refine ⟨?_, ?_, ?_⟩
  · intro p x hp
    unfold EnvVar.Key
    rw [if_neg hp]
    rfl
  · intro x
    rfl
  · intro g p x
    rfl

/-- Witness for C7: the non-empty prefix `"ZED"` with variable `"APP_DIR"`. -/
theorem EnvVarKey_contract_witness : EnvVar.Key "APP_DIR" "ZED" = "ZED" ++ "_" ++ "APP_DIR" :=
  EnvVarKey_contract.1 "ZED" "APP_DIR" (by decide)

/-! ## Claim C8: Populate before any load -/

/-- C8. `Populate` on a container in its zero-value state (provider never set)
returns `ErrNoConfigsLoaded` and does not delegate to the underlying
provider's deserialization (the delegation flag of the instrumented run is
`false`). -/
theorem Populate_zero_value (key : String) :
    yamlContainer.Populate { cfg := none } key = some ErrNoConfigsLoaded ∧
    (yamlContainer.PopulateRun { cfg := none } key).2.1 = false :=
  ⟨rfl, rfl⟩

/-! ## Claim C3: the lock side taken by Populate -/

/-- C3 counterexample. The lock trace of a `Populate` call is not made of
read-side operations: the source calls `y.Lock()` / `y.Unlock()`, the
exclusive side, refuting the claim that `Populate` acquires only the read side
of the reader/writer lock. Evaluated on the zero-value container with key
`"service"`. -/
theorem Populate_lock_not_read_side :
    ((yamlContainer.PopulateRun { cfg := none } "service").1).all LockOp.isReadSide = false := by
  decide

/-- C3 (amended). Every `Populate` call — both before and after a successful
load — acquires and releases the exclusive (write) side of the container's
reader/writer lock; none of its lock operations is on the read side, so
concurrent `Populate` calls serialize instead of running in parallel, and the
write side is taken on every query after the initial load. -/
theorem Populate_lock_write_side (y : yamlContainer) (key : String) :
    (y.PopulateRun key).1 = [LockOp.lock, LockOp.unlock] ∧
    ∀ op ∈ (y.PopulateRun key).1, LockOp.isReadSide op = false := by
  obtain ⟨c⟩ := y
  cases c <;> simp [yamlContainer.PopulateRun, LockOp.isReadSide]

/-! ## Claim C2: extension matching in the locator -/

/-- C2 counterexample. A directory containing only `Base.YML` does not match
logical name `"base"`: the extension lookup in `yamlExts` is an exact,
case-sensitive map lookup, so `".YML"` is skipped and the locator reports
`ErrConfigNotFound`, refuting the claimed case-insensitive extension match. -/
theorem resolveConfig_BaseYML_no_match :
    resolveConfig (fsWithFile "Base.YML") "d" "base" = ("", some ErrConfigNotFound) := by
  decide

/-- C2 (amended). The locator accepts a file as a YAML candidate only when its
extension exactly (case-sensitively) equals `".yaml"` or `".yml"`: a plain
file whose extension is not a key of `yamlExts` is skipped, while a plain file
with an exact-case extension whose stripped base name case-insensitively
equals the logical name is returned; in particular a directory containing only
`Base.yaml` does match logical name `"base"` (the base-name comparison is
case-insensitive, the extension comparison is not). -/
theorem resolveConfig_ext_case_sensitive :
    (∀ (dir name : String) (x : DirEntry) (files : List DirEntry),
        x.isDir = false → yamlExts.contains (filepathExt x.name) = false →
        resolveLoop dir name (x :: files) = resolveLoop dir name files) ∧
    (∀ (dir name : String) (x : DirEntry) (files : List DirEntry),
        x.isDir = false → yamlExts.contains (filepathExt x.name) = true →
        equalFold (configBaseName x.name) name = true →
        resolveLoop dir name (x :: files) = (filepathJoin dir x.name, none)) ∧
    resolveConfig (fsWithFile "Base.yaml") "d" "base" = ("d/Base.yaml", none) := by
  refine ⟨?_, ?_, by decide⟩
  · intro dir name x files hdir hext
    have hm : filepathExt x.name ∉ yamlExts := by simpa using hext
    simp only [resolveLoop]
    simp [hdir, hm]
  · intro dir name x files hdir hext hfold
    have hm : filepathExt x.name ∈ yamlExts := by simpa using hext
    simp only [resolveLoop]
    simp [hdir, hm, hfold]

/-- Witness for C2 (amended): `Base.YML` is skipped (exact-extension check
fails), `Base.yaml` is matched for logical name `"base"`. -/
theorem resolveConfig_ext_case_sensitive_witness :
    resolveLoop "d" "base" [{ name := "Base.YML", isDir := false }] = resolveLoop "d" "base" [] ∧
    resolveLoop "d" "base" [{ name := "Base.yaml", isDir := false }] =
      (filepathJoin "d" "Base.yaml", none) :=
  ⟨resolveConfig_ext_case_sensitive.1 "d" "base" { name := "Base.YML", isDir := false } []
      (by decide) (by decide),
   resolveConfig_ext_case_sensitive.2.1 "d" "base" { name := "Base.yaml", isDir := false } []
      (by decide) (by decide) (by decide)⟩

/-! ## Claim C9: the name compared by the locator -/

/-- C9 counterexample. For a file named `base.yaml.yaml` the locator does not
compare the single-trailing-extension-stripped name `base.yaml`: logical name
`"base.yaml"` finds no match, while logical name `"base"` does match the file,
because `strings.Replace(..., -1)` removes every occurrence of `".yaml"` from
the base name. -/
theorem resolveConfig_double_ext :
    resolveConfig (fsWithFile "base.yaml.yaml") "d" "base.yaml" =
      ("", some ErrConfigNotFound) ∧
    resolveConfig (fsWithFile "base.yaml.yaml") "d" "base" =
      ("d/base.yaml.yaml", none) := by
  decide

/-- C9 (amended). The name the locator compares against the logical name is
the file's base name with every (left-to-right, non-overlapping) occurrence of
its extension substring removed, not just the single trailing one. When the
extension occurs only at the end of the name the two notions agree — stripping
yields exactly the name without its trailing extension — but for
`base.yaml.yaml` the compared name is `base`, not `base.yaml` (while `dev.yaml`
is compared as `dev`). -/
theorem configBaseName_strips_every_occurrence :
    (∀ (pat b : List Char), pat ≠ [] →
        (∀ i, i < b.length → listStartsWith ((b ++ pat).drop i) pat = false) →
        replaceAll pat [] (b ++ pat) = b) ∧
    configBaseName "base.yaml.yaml" = "base" ∧
    configBaseName "dev.yaml" = "dev" := by
  refine ⟨?_, by decide, by decide⟩
  intro pat b hpat
  induction b with
  | nil =>
    intro _
    cases pat with
    | nil => exact absurd rfl hpat
    | cons p ps =>
      show replaceAllAux (p :: ps) [] 0 (p :: ps) = []
      rw [replaceAllAux, if_pos ⟨hpat, listStartsWith_refl (p :: ps)⟩]
      simpa using replaceAllAux_skip_all (p :: ps) [] ps
  | cons c b' ih =>
    intro h
    have h0 : listStartsWith (c :: (b' ++ pat)) pat = false := by
      have := h 0 (by simp)
      simpa using this
    show replaceAllAux pat [] 0 (c :: (b' ++ pat)) = c :: b'
    rw [replaceAllAux, if_neg (by simp [h0])]
    have := ih (fun i hi => by
      have := h (i + 1) (by simp; omega)
      simpa using this)
    simpa using this

/-- Witness for C9 (amended): the single-occurrence hypothesis holds for
`"dev"` with extension `".yaml"`, and stripping returns `"dev"`. -/
theorem configBaseName_strips_every_occurrence_witness :
    replaceAll ".yaml".data [] ("dev".data ++ ".yaml".data) = "dev".data :=
  configBaseName_strips_every_occurrence.1 ".yaml".data "dev".data (by decide) (by decide)

/-! ## Claim C4: NewConfig error policy -/

theorem resolveLoop_error_fst (dir name : String) (files : List DirEntry) (e : GoErr)
    (h : (resolveLoop dir name files).2 = some e) : (resolveLoop dir name files).1 = "" := by
  induction files with
  | nil => rfl
  | cons x rest ih =>
    simp only [resolveLoop] at h ⊢
    repeat' split at h
    all_goals simp_all

theorem resolveConfig_error_fst (fs : FS) (dir name : String) (e : GoErr)
    (h : (resolveConfig fs dir name).2 = some e) : (resolveConfig fs dir name).1 = "" := by
  unfold resolveConfig at h ⊢
  repeat' split at h
  all_goals try simp_all
  all_goals exact resolveLoop_error_fst _ _ _ _ h

/-- C4. `NewConfig`: a base-file locator error other than `ErrConfigNotFound`
is fatal and returned as is; a base-file `ErrConfigNotFound` is tolerated —
loading proceeds with no base layer in the option list and no error from the
base step; and any error from locating the environment-named file (including
`ErrConfigNotFound`) is returned as the function's error. -/
theorem NewConfig_contract :
    (∀ (w : ConfigWorld) (env : EnvContext) (e : GoErr),
        (resolveConfig w.fs env.ConfigPath _defaultConfigName).2 = some e →
        e ≠ ErrConfigNotFound →
        NewConfig w env = ({ cfg := none }, some e)) ∧
    (∀ (w : ConfigWorld) (env : EnvContext),
        (resolveConfig w.fs env.ConfigPath _defaultConfigName).2 = some ErrConfigNotFound →
        NewConfig w env =
          (match (resolveConfig w.fs env.ConfigPath (EnvID.Name env.Environment)).2 with
           | some e => ({ cfg := none }, some e)
           | none =>
             finishNewConfig w
               [YAMLOption.expandEnv,
                YAMLOption.file
                  (resolveConfig w.fs env.ConfigPath (EnvID.Name env.Environment)).1])) ∧
    (∀ (w : ConfigWorld) (env : EnvContext) (e : GoErr),
        ((resolveConfig w.fs env.ConfigPath _defaultConfigName).2 = none ∨
         (resolveConfig w.fs env.ConfigPath _defaultConfigName).2 = some ErrConfigNotFound) →
        (resolveConfig w.fs env.ConfigPath (EnvID.Name env.Environment)).2 = some e →
        NewConfig w env = ({ cfg := none }, some e)) := by
  refine ⟨?_, ?_, ?_⟩
  · intro w env e hb he
    simp only [NewConfig]
    rw [if_pos ⟨by simp [hb], by simp [hb, he]⟩, hb]
  · intro w env hb
    have hfst := resolveConfig_error_fst w.fs env.ConfigPath _defaultConfigName ErrConfigNotFound hb
    simp only [NewConfig]
    rw [if_neg (by simp [hb]), hfst, if_neg (by simp)]
    rfl
  · intro w env e hbase henv
    simp only [NewConfig]
    rw [if_neg (by rcases hbase with h | h <;> simp [h]), henv]

/-- Witness for C4: a generic stat failure on the base lookup is fatal; with
only `dev.yaml` present the base step contributes neither a layer nor an
error; with an empty directory the environment lookup's `ErrConfigNotFound`
is returned. -/
theorem NewConfig_contract_witness :
    NewConfig cwStatFail envDev =
      ({ cfg := none }, some (GoErr.msg "config directory d could not be located: disk")) ∧
    NewConfig cwOnlyDev envDev =
      (match (resolveConfig cwOnlyDev.fs envDev.ConfigPath (EnvID.Name envDev.Environment)).2 with
       | some e => ({ cfg := none }, some e)
       | none =>
         finishNewConfig cwOnlyDev
           [YAMLOption.expandEnv,
            YAMLOption.file
              (resolveConfig cwOnlyDev.fs envDev.ConfigPath (EnvID.Name envDev.Environment)).1]) ∧
    NewConfig cwEmptyDir envDev = ({ cfg := none }, some ErrConfigNotFound) :=
  ⟨NewConfig_contract.1 cwStatFail envDev _ (by decide) (by decide),
   NewConfig_contract.2.1 cwOnlyDev envDev (by decide),
   NewConfig_contract.2.2 cwEmptyDir envDev ErrConfigNotFound (Or.inr (by decide)) (by decide)⟩

/-! ## Claim C1: the context returned on construction failure -/

theorem ParseEnvKeyPrefix_fst_ne_empty (v : String) : (ParseEnvKeyPrefix v).1 ≠ "" := by
  unfold ParseEnvKeyPrefix
  repeat' split <;> first | decide | simp_all

theorem NewEnvContextCore_EnvPrefix (w : EnvWorld) (q : EnvKeyPrefix) :
    (NewEnvContextCore w q).1.EnvPrefix = q := by
  simp only [NewEnvContextCore]
  repeat' split
  all_goals rfl

/-- C1 counterexample. In a world where the prefix validates (empty prefix,
giving the default) but hostname resolution fails, `NewEnvContext` returns an
error together with a context that is *not* the zero value — it already
carries the prefix, defaults and environment-variable reads — refuting the
claim that every post-validation failure yields the zero-value context. -/
theorem NewEnvContext_not_zero_on_failure :
    (ParseEnvKeyPrefix "").2 = none ∧
    ((NewEnvContext envWorldHostFail "").2).isSome = true ∧
    (NewEnvContext envWorldHostFail "").1 ≠ zeroEnvContext := by
  decide

/-- C1 (amended). When the prefix validates but construction fails later,
`NewEnvContext` returns the partially populated context built so far alongside
the error: the returned context carries the parsed prefix in `EnvPrefix` (which
is never empty), so it is never the zero value. Only a prefix-validation
failure returns the zero-value context. -/
theorem NewEnvContext_failure_partial (w : EnvWorld) (p : String)
    (hp : (ParseEnvKeyPrefix p).2 = none)
    (hf : ((NewEnvContext w p).2).isSome = true) :
    (NewEnvContext w p).1.EnvPrefix = (ParseEnvKeyPrefix p).1 ∧
    (NewEnvContext w p).1 ≠ zeroEnvContext := by
  have hq : (ParseEnvKeyPrefix p).1 ≠ "" := ParseEnvKeyPrefix_fst_ne_empty p
  unfold NewEnvContext
  rcases hpp : ParseEnvKeyPrefix p with ⟨q, err⟩
  rw [hpp] at hp hq
  simp only at hp
  subst hp
  simp only at hq
  refine ⟨NewEnvContextCore_EnvPrefix w q, ?_⟩
  intro hzero
  have h2 := congrArg EnvContext.EnvPrefix hzero
  rw [NewEnvContextCore_EnvPrefix w q] at h2
  exact hq (h2.trans rfl)

/-- Witness for C1 (amended): the hostname-failure world with empty prefix. -/
theorem NewEnvContext_failure_partial_witness :
    (NewEnvContext envWorldHostFail "").1.EnvPrefix = (ParseEnvKeyPrefix "").1 ∧
    (NewEnvContext envWorldHostFail "").1 ≠ zeroEnvContext :=
  NewEnvContext_failure_partial envWorldHostFail "" (by decide) (by decide)

end Cfx
